import Mathlib

/-!
Verification development for the eco-routing core (ai-service):
shallow embedding of `algorithms/astar.py`, `algorithms/orion.py`,
`algorithms/emissions.py` and the replan endpoint of `main.py`,
together with theorems settling the specification claims.

Numbers are modelled by `ℚ`.  Python float values that can be the IEEE
infinity (travel times when `free_flow_speed ≤ 0`) are modelled by the
two-constructor type `F` below.  The haversine function (transcendental)
is abstracted as an explicit function parameter `hav`; the two wall-clock
readings taken by `orion_route` are explicit parameters `t0 t1`.
-/

set_option allowUnsafeReducibility true in
attribute [semireducible] Rat.add Rat.mul Rat.inv Rat.sub Rat.div

namespace NewAmuo

/-- Python float values appearing as travel times / costs: either a finite
rational or positive infinity.  Non-finite costs (infinity, and the NaN that
Python produces for `0.0 * inf`) never pass the `<` relaxation test, which is
why a single `inf` constructor suffices: `F.blt` is false whenever the left
argument is not finite, exactly like IEEE comparisons on `inf`/`nan`. -/
inductive F where
  | fin : ℚ → F
  | inf : F
deriving DecidableEq

/-- Python `<` on these values: `inf < x` and `nan < x` are both false. -/
def F.blt : F → F → Bool
  | F.fin a, F.fin b => decide (a < b)
  | F.fin _, F.inf => true
  | F.inf, _ => false

/-- Extract the rational of a finite value (used only where the code has
already established finiteness via a successful `F.blt` test). -/
def F.toQ : F → ℚ
  | F.fin q => q
  | F.inf => 0

/-- `q + x` for a float `x` (finite + inf = inf, as in Python). -/
def F.qadd (q : ℚ) : F → F
  | F.fin a => F.fin (q + a)
  | F.inf => F.inf

/-- Round-half-to-even to an integer, the rounding mode of Python `round`. -/
def roundHalfEven (x : ℚ) : ℤ :=
  let n := Int.floor x
  let frac := x - n
  if frac < 1/2 then n
  else if 1/2 < frac then n + 1
  else if n % 2 = 0 then n else n + 1

/-- Python `round(x, nd)` on our rational model of floats. -/
def pyRound (nd : ℕ) (x : ℚ) : ℚ :=
  (roundHalfEven (x * 10 ^ nd) : ℚ) / 10 ^ nd

/-! Configuration constants (`config.py`). -/

/-- `GraphConfig.v_max_kmh` default. -/
def graph_config_v_max_kmh : ℚ := 120

/-- `GraphConfig.bpr_alpha` default; `bpr_beta = 4.0` appears as the
exponent `4` below. -/
def graph_config_bpr_alpha : ℚ := 15/100

/-- `EmissionConfig` constants. -/
def emission_fuel_a : ℚ := 667/10000

def emission_fuel_b : ℚ := 556/10000

def emission_fuel_c : ℚ := 472/1000000

def emission_co2_per_liter : ℚ := 2310

/-! Emission model (`algorithms/emissions.py`). -/

/-- `fuel_consumption`: clamp the speed from below to 5 km/h, evaluate the
COPERT polynomial, floor the result at 0.01 L/km. -/
def fuel_consumption (speed_kmh : ℚ) : ℚ :=
  let v := max speed_kmh 5
  max (emission_fuel_a + emission_fuel_b / v + emission_fuel_c * v ^ 2) (1/100)

/-- `emission_factor`: g CO₂ per km at the given speed. -/
def emission_factor (speed_kmh : ℚ) : ℚ :=
  emission_co2_per_liter * fuel_consumption speed_kmh

/-! Road-graph data model.  The graph builder always sets `length_m`,
`speed_limit_kmh`, `free_flow_speed_kmh`, `capacity` and `road_type` on every
edge, so the dictionary `.get` fallbacks in the routing code never fire and
the attributes are modelled as plain structure fields. -/

structure NodeData where
  lat : ℚ
  lng : ℚ
deriving DecidableEq

structure EdgeData where
  length_m : ℚ
  speed_limit_kmh : ℚ
  free_flow_speed_kmh : ℚ
  capacity : ℚ
  road_type : String
deriving DecidableEq

/-- Directed graph: node-id list, node attributes, directed edge list and
edge attributes (meaningful on listed edges). -/
structure Graph where
  nodes : List ℕ
  nodeData : ℕ → NodeData
  edges : List (ℕ × ℕ)
  edgeData : ℕ → ℕ → EdgeData

def Graph.hasEdge (g : Graph) (u v : ℕ) : Bool :=
  decide ((u, v) ∈ g.edges)

/-- Outgoing neighbors of `u`, in edge-list (insertion) order, matching
`networkx` successor iteration order. -/
def Graph.successors (g : Graph) (u : ℕ) : List ℕ :=
  (g.edges.filter (fun p => decide (p.1 = u))).map Prod.snd

/-- One `traffic_predictions` entry; the `"speed"` key may be absent. -/
structure PredEntry where
  speed : Option ℚ
deriving DecidableEq

/-- `traffic_predictions`: `None`, or a map from edge key `(u, v)`
(Python string `"u-v"`) to entries. -/
abbrev Preds := Option ((ℕ × ℕ) → Option PredEntry)

/-- Abstraction of the transcendental `haversine(lat1, lng1, lat2, lng2)`. -/
abbrev HavFn := ℚ → ℚ → ℚ → ℚ → ℚ

/-! Time is an absolute timestamp in seconds (a rational); `datetime.hour`
and `datetime.minute` are its clock fields, `timedelta` addition is `+`. -/

def dt_hour (t : ℚ) : ℤ := ((Int.floor t).ediv 3600).emod 24

def dt_minute (t : ℚ) : ℤ := ((Int.floor t).ediv 60).emod 60

/-- `current_time.hour + current_time.minute / 60.0` (seconds ignored,
exactly as in the source). -/
def hourFrac (t : ℚ) : ℚ := (dt_hour t : ℚ) + (dt_minute t : ℚ) / 60

/-! Time-dependent edge weight (`algorithms/astar.py`). -/

/-- Time-of-day volume model of `time_dependent_weight`. -/
def volume_frac (hour : ℚ) : ℚ :=
  if (7 ≤ hour ∧ hour < 9) ∨ (17 ≤ hour ∧ hour < 19) then 85/100
  else if 9 ≤ hour ∧ hour < 17 then 6/10
  else if (5 ≤ hour ∧ hour < 7) ∨ (19 ≤ hour ∧ hour < 22) then 4/10
  else 15/100

/-- `bpr_travel_time`: BPR volume-delay function, `+∞` when the free-flow
speed is not positive (`3.6 = 18/5`). -/
def bpr_travel_time (length_m free_flow_speed_kmh volume capacity : ℚ) : F :=
  let free_flow_speed_ms := free_flow_speed_kmh / (18/5)
  if free_flow_speed_ms ≤ 0 then F.inf
  else
    let t0 := length_m / free_flow_speed_ms
    let vc := if 0 < capacity then volume / capacity else 0
    F.fin (t0 * (1 + graph_config_bpr_alpha * vc ^ 4))

/-- BPR fallback branch of `time_dependent_weight` (volume estimated from
the time of day).  The effective speed is `length_m / t * 3.6` when `t > 0`;
`length_m / inf * 3.6` is `0` in Python, and a non-positive finite `t`
falls back to the free-flow speed. -/
def tdw_fallback (edge : EdgeData) (current_time : ℚ) : F × ℚ :=
  let hour := hourFrac current_time
  let vr := volume_frac hour
  let volume := edge.capacity * vr
  let tt := bpr_travel_time edge.length_m edge.free_flow_speed_kmh volume edge.capacity
  let eff : ℚ :=
    match tt with
    | F.fin q => if 0 < q then edge.length_m / q * (18/5) else edge.free_flow_speed_kmh
    | F.inf => 0
  (tt, eff)

/-- The `predicted_speed` lookup of `time_dependent_weight`: present only
when the predictions map and the edge key exist, the key is in the map, and
the entry carries a `"speed"` value. -/
def predicted_speed_of (preds : Preds) (edge_key : Option (ℕ × ℕ)) :
    Option ℚ :=
  match preds, edge_key with
  | some m, some k =>
    match m k with
    | some p => p.speed
    | none => none
  | _, _ => none

/-- `time_dependent_weight`: prediction override when a positive predicted
speed exists for the edge key (`predicted_speed and predicted_speed > 0`:
a zero speed is falsy, a negative one fails `> 0`; both fall back),
otherwise the BPR fallback.  Returns `(travel_time_s, speed_kmh)`. -/
def time_dependent_weight (edge : EdgeData) (current_time : ℚ)
    (preds : Preds) (edge_key : Option (ℕ × ℕ)) : F × ℚ :=
  match predicted_speed_of preds edge_key with
  | some s =>
    if 0 < s then (F.fin (edge.length_m / (s / (18/5))), s)
    else tdw_fallback edge current_time
  | none => tdw_fallback edge current_time

/-! Extended multi-objective edge cost (`algorithms/orion.py`). -/

/-- The per-edge breakdown dictionary returned by `extended_edge_cost`. -/
structure Breakdown where
  travel_time_s : F
  speed_kmh : ℚ
  co2_grams : ℚ
  congestion : ℚ
  distance_m : ℚ
  scalar_cost : F
deriving DecidableEq

/-- `extended_edge_cost`.  When the travel time is not finite the scalarized
cost is not finite either (Python yields `inf`, or `nan` when `alpha = 0`;
both are collapsed into `F.inf`, which behaves identically under the
relaxation comparison).  The congestion guard `if free_flow_speed > 0`
mirrors the source. -/
def extended_edge_cost (edge : EdgeData) (current_time : ℚ) (preds : Preds)
    (edge_key : Option (ℕ × ℕ)) (alpha beta gamma delta detour : ℚ) :
    F × Breakdown :=
  let tw := time_dependent_weight edge current_time preds edge_key
  let travel_time_s := tw.1
  let pred_speed := tw.2
  let length_km := edge.length_m / 1000
  let free_flow := edge.free_flow_speed_kmh
  let congestion : ℚ :=
    if 0 < free_flow then max 0 (min 1 (1 - pred_speed / free_flow)) else 0
  let traffic_penalty := 1 + (1/2) * congestion
  let co2_grams := length_km * emission_factor pred_speed * traffic_penalty
  let rest := beta * (co2_grams / 100) + gamma * congestion + delta * detour
  let cost : F :=
    match travel_time_s with
    | F.fin t => F.fin (alpha * (t / 60) + rest)
    | F.inf => F.inf
  (cost, ⟨travel_time_s, pred_speed, co2_grams, congestion, edge.length_m, cost⟩)

end NewAmuo

namespace NewAmuo

/-! Search-state machinery shared by `orion_route` and `astar_route`.
Priority-queue entries mirror the tuples `(f_cost, counter, node,
arrival_time, g_cost)`; `heapq` pops the tuple-lexicographic minimum, and
because the counters of distinct entries are distinct the order is decided
by `(f_cost, counter)` alone. -/

structure Entry where
  f : F
  counter : ℕ
  node : ℕ
  time : ℚ
  g : ℚ
deriving DecidableEq

/-- Strict order on queue entries: by `f`, ties by the push counter. -/
def entryLt (a b : Entry) : Bool :=
  F.blt a.f b.f || (decide (a.f = b.f) && decide (a.counter < b.counter))

/-- Functional model of `heapq.heappop`: remove the least entry. -/
def popMin : List Entry → Option (Entry × List Entry)
  | [] => none
  | x :: xs =>
    match popMin xs with
    | none => some (x, [])
    | some (m, rest) => if entryLt m x then some (m, x :: rest) else some (x, xs)

/-- Point update of a dictionary modelled as a function into `Option`. -/
def upd {β : Type} (f : ℕ → Option β) (k : ℕ) (v : β) : ℕ → Option β :=
  fun n => if n = k then some v else f n

/-- `heuristic` of `astar.py`: abstracted haversine over `v_max_ms`,
infinity when `v_max_ms ≤ 0`. -/
def heuristic (G : Graph) (node goal : ℕ) (v_max_ms : ℚ) (hav : HavFn) : F :=
  let nd := G.nodeData node
  let gd := G.nodeData goal
  let dist_m := hav nd.lat nd.lng gd.lat gd.lng
  if 0 < v_max_ms then F.fin (dist_m / v_max_ms) else F.inf

/-- Path reconstruction: walk `came_from` from `goal`, then append `start`
and reverse (the accumulator already holds the reversed order).  The fuel
bounds the walk; callers pass one more than the number of parent entries,
which covers every acyclic parent chain. -/
def reconstructAux (cf : ℕ → Option (ℕ × EdgeData)) (start : ℕ) :
    ℕ → ℕ → List ℕ → List ℕ
  | 0, _, acc => start :: acc
  | fuel+1, node, acc =>
    match cf node with
    | some pe => reconstructAux cf start fuel pe.1 (node :: acc)
    | none => start :: acc

def reconstructPath (cf : ℕ → Option (ℕ × EdgeData)) (start goal fuel : ℕ) :
    List ℕ :=
  reconstructAux cf start fuel goal []

/-! AUMO-ORION search (`orion_route` in `orion.py`). -/

structure Segment where
  from_node : ℕ
  to_node : ℕ
  distance_m : ℚ
  travel_time_s : ℚ
  speed_kmh : ℚ
  co2_g : ℚ
  congestion : ℚ
  road_type : String
deriving DecidableEq

structure OrionResult where
  algorithm : String
  path_nodes : List ℕ
  polyline : List (ℚ × ℚ)
  distanceKm : ℚ
  durationMin : ℚ
  co2Grams : ℚ
  cost : ℚ
  nodesExplored : ℕ
  searchTimeMs : ℚ
  efficiency_r : ℚ
  segments : List Segment
  w_alpha : ℚ
  w_beta : ℚ
  w_gamma : ℚ
  w_delta : ℚ
  departureTime : ℚ
  arrivalTime : ℚ
  presetName : Option String
deriving DecidableEq

/-- The fixed data of one `orion_route` invocation. -/
structure OCtx where
  G : Graph
  searchG : Graph
  start : ℕ
  goal : ℕ
  departure : ℚ
  alpha : ℚ
  beta : ℚ
  gamma : ℚ
  delta : ℚ
  preds : Preds
  hav : HavFn
  v_max_ms : ℚ

/-- The per-query mutable search state of `orion_route`. -/
structure OState where
  open_set : List Entry
  counter : ℕ
  g_scores : ℕ → Option ℚ
  came_from : ℕ → Option (ℕ × EdgeData)
  arrival_times : ℕ → Option ℚ
  edge_details : ℕ → Option Breakdown
  visited : List ℕ
  nodes_explored : ℕ

/-- Relax one neighbor edge in `orion_route` (the body of the successor
loop): skip closed neighbors, evaluate the extended cost, and update the
maps and the queue when the new `g` is an improvement. -/
def orionRelax (ctx : OCtx) (cur : Entry) (st : OState) (neighbor : ℕ) :
    OState :=
  if neighbor ∈ st.visited then st
  else
    let edge_data := ctx.searchG.edgeData cur.node neighbor
    let ec := extended_edge_cost edge_data cur.time ctx.preds
                (some (cur.node, neighbor)) ctx.alpha ctx.beta ctx.gamma ctx.delta 0
    let g_new := F.qadd cur.g ec.1
    let old : F :=
      match st.g_scores neighbor with
      | some q => F.fin q
      | none => F.inf
    if F.blt g_new old then
      let gq := g_new.toQ
      let t_arrival := cur.time + (ec.2.travel_time_s).toQ
      let h := heuristic ctx.G neighbor ctx.goal ctx.v_max_ms ctx.hav
      { open_set := ⟨F.qadd gq h, st.counter + 1, neighbor, t_arrival, gq⟩ :: st.open_set,
        counter := st.counter + 1,
        g_scores := upd st.g_scores neighbor gq,
        came_from := upd st.came_from neighbor (cur.node, edge_data),
        arrival_times := upd st.arrival_times neighbor t_arrival,
        edge_details := upd st.edge_details neighbor ec.2,
        visited := st.visited,
        nodes_explored := st.nodes_explored }
    else st

/-- Raw (unrounded) per-segment data gathered during result construction. -/
structure SegRaw where
  a : ℕ
  b : ℕ
  dist : ℚ
  time : ℚ
  speed : ℚ
  co2 : ℚ
  cong : ℚ
  rt : String

/-- One iteration of the orion result-building segment loop (defaults for
missing `edge_details`, as in the source). -/
def orionSegRaw (G : Graph) (details : ℕ → Option Breakdown) (p : ℕ × ℕ) :
    SegRaw :=
  let ed := G.edgeData p.1 p.2
  let seg_dist := ed.length_m
  let seg_time : ℚ :=
    match details p.2 with
    | some bd => bd.travel_time_s.toQ
    | none => seg_dist / (100/9)
  let seg_speed : ℚ :=
    match details p.2 with
    | some bd => bd.speed_kmh
    | none => 40
  let seg_co2 : ℚ :=
    match details p.2 with
    | some bd => bd.co2_grams
    | none => (seg_dist / 1000) * emission_factor seg_speed
  let seg_cong : ℚ :=
    match details p.2 with
    | some bd => bd.congestion
    | none => 0
  ⟨p.1, p.2, seg_dist, seg_time, seg_speed, seg_co2, seg_cong, ed.road_type⟩

def segOfRaw (s : SegRaw) : Segment :=
  ⟨s.a, s.b, pyRound 1 s.dist, pyRound 1 s.time, pyRound 1 s.speed,
   pyRound 1 s.co2, pyRound 3 s.cong, s.rt⟩

/-- Result construction in the goal branch of `orion_route` (totals are
accumulated unrounded, only the exported fields are rounded; segment pairs
missing from `G` are skipped). -/
def buildOrionResult (ctx : OCtx) (st : OState) (cur : Entry)
    (search_time_ms : ℚ) : OrionResult :=
  let path := reconstructPath st.came_from ctx.start ctx.goal (st.counter + 1)
  let polyline := path.map (fun n => ((ctx.G.nodeData n).lat, (ctx.G.nodeData n).lng))
  let prs := (path.zip path.tail).filter (fun p => ctx.G.hasEdge p.1 p.2)
  let raws := prs.map (orionSegRaw ctx.G st.edge_details)
  let total_distance_m := (raws.map SegRaw.dist).sum
  let total_duration_s := (raws.map SegRaw.time).sum
  let total_co2_g := (raws.map SegRaw.co2).sum
  let sd := ctx.G.nodeData ctx.start
  let gd := ctx.G.nodeData ctx.goal
  let direct_dist_m := ctx.hav sd.lat sd.lng gd.lat gd.lng
  let eff := if 0 < total_distance_m then direct_dist_m / total_distance_m else 0
  { algorithm := "AUMO-ORION",
    path_nodes := path,
    polyline := polyline,
    distanceKm := pyRound 3 (total_distance_m / 1000),
    durationMin := pyRound 2 (total_duration_s / 60),
    co2Grams := pyRound 1 total_co2_g,
    cost := pyRound 4 cur.g,
    nodesExplored := st.nodes_explored,
    searchTimeMs := pyRound 1 search_time_ms,
    efficiency_r := pyRound 3 eff,
    segments := raws.map segOfRaw,
    w_alpha := ctx.alpha,
    w_beta := ctx.beta,
    w_gamma := ctx.gamma,
    w_delta := ctx.delta,
    departureTime := ctx.departure,
    arrivalTime := (st.arrival_times ctx.goal).getD ctx.departure,
    presetName := none }

/-- One iteration of the `orion_route` while loop: `Sum.inl` means the loop
ends this iteration (queue empty, or goal popped with a result), `Sum.inr`
is the state carried to the next iteration. -/
def orionBody (ctx : OCtx) (search_time_ms : ℚ) (st : OState) :
    Sum (Option OrionResult) OState :=
  match popMin st.open_set with
  | none => Sum.inl none
  | some (cur, rest) =>
    let st0 : OState := { st with open_set := rest, nodes_explored := st.nodes_explored + 1 }
    if cur.node = ctx.goal then
      Sum.inl (some (buildOrionResult ctx st0 cur search_time_ms))
    else if cur.node ∈ st0.visited then Sum.inr st0
    else
      let st1 : OState := { st0 with visited := cur.node :: st0.visited }
      Sum.inr ((ctx.searchG.successors cur.node).foldl (orionRelax ctx cur) st1)

/-- The while loop of `orion_route`; the fuel is the remaining
`max_iterations` budget, and exhausting it yields `none`. -/
def orionLoop (ctx : OCtx) (search_time_ms : ℚ) : ℕ → OState → Option OrionResult
  | 0, _ => none
  | fuel+1, st =>
    match orionBody ctx search_time_ms st with
    | Sum.inl r => r
    | Sum.inr st1 => orionLoop ctx search_time_ms fuel st1

/-- The state after `n` continuing iterations of the `orion_route` loop
(`none` when the loop terminates earlier). -/
def orionStates (ctx : OCtx) (search_time_ms : ℚ) : ℕ → OState → Option OState
  | 0, st => some st
  | n+1, st =>
    match orionBody ctx search_time_ms st with
    | Sum.inl _ => none
    | Sum.inr st1 => orionStates ctx search_time_ms n st1

def orionInit (ctx : OCtx) : OState :=
  { open_set := [⟨heuristic ctx.G ctx.start ctx.goal ctx.v_max_ms ctx.hav, 0,
                  ctx.start, ctx.departure, 0⟩],
    counter := 0,
    g_scores := upd (fun _ => none) ctx.start 0,
    came_from := fun _ => none,
    arrival_times := upd (fun _ => none) ctx.start ctx.departure,
    edge_details := fun _ => none,
    visited := [],
    nodes_explored := 0 }

/-- Default of the `max_iterations` parameter of `orion_route`. -/
def orion_default_max_iterations : ℕ := 150000

/-- `orion_route`.  `ch` models an optional preprocessed contraction
hierarchy by its contracted graph (`ch.contracted_graph if ch and
ch.is_preprocessed else G`); `t0`/`t1` are the two wall-clock readings the
source takes (`time.time()` before the loop and at goal pop), consumed only
by `searchTimeMs`. -/
def orion_route (G : Graph) (start goal : ℕ) (departure : ℚ)
    (alpha beta gamma delta : ℚ) (preds : Preds) (ch : Option Graph)
    (hav : HavFn) (t0 t1 : ℚ) (max_iterations : ℕ) : Option OrionResult :=
  if start ∈ G.nodes ∧ goal ∈ G.nodes then
    let search_graph := ch.getD G
    let ctx : OCtx :=
      ⟨G, search_graph, start, goal, departure, alpha, beta, gamma, delta,
       preds, hav, graph_config_v_max_kmh / (18/5)⟩
    orionLoop ctx ((t1 - t0) * 1000) max_iterations (orionInit ctx)
  else none

end NewAmuo

namespace NewAmuo

/-! Classic time-dependent A* (`astar_route` in `astar.py`). -/

/-- `multi_objective_cost` of `astar.py` (non-finite travel times yield a
non-finite cost, which never passes the relaxation test). -/
def multi_objective_cost (travel_time_s : F)
    (distance_m speed_kmh alpha beta gamma : ℚ) : F :=
  let distance_km := distance_m / 1000
  let co2_grams := distance_km * emission_factor speed_kmh
  let e_norm := co2_grams / 100
  let d_norm := distance_m / 1000
  match travel_time_s with
  | F.fin t => F.fin (alpha * (t / 60) + beta * e_norm + gamma * d_norm)
  | F.inf => F.inf

/-- The per-edge data `astar_route` stores for result construction. -/
structure AInfo where
  travel_time : ℚ
  speed : ℚ
  distance : ℚ
deriving DecidableEq

structure AstarResult where
  path_nodes : List ℕ
  polyline : List (ℚ × ℚ)
  distanceKm : ℚ
  durationMin : ℚ
  co2Grams : ℚ
  cost : ℚ
  nodesExplored : ℕ
deriving DecidableEq

structure ACtx where
  G : Graph
  start : ℕ
  goal : ℕ
  departure : ℚ
  alpha : ℚ
  beta : ℚ
  gamma : ℚ
  preds : Preds
  hav : HavFn
  v_max_ms : ℚ

structure AState where
  open_set : List Entry
  counter : ℕ
  g_scores : ℕ → Option ℚ
  came_from : ℕ → Option (ℕ × EdgeData)
  arrival_times : ℕ → Option ℚ
  edge_costs : ℕ → Option AInfo
  visited : List ℕ

/-- Relax one neighbor edge in `astar_route`. -/
def astarRelax (ctx : ACtx) (cur : Entry) (st : AState) (neighbor : ℕ) :
    AState :=
  if neighbor ∈ st.visited then st
  else
    let edge_data := ctx.G.edgeData cur.node neighbor
    let tw := time_dependent_weight edge_data cur.time ctx.preds
                (some (cur.node, neighbor))
    let edge_cost := multi_objective_cost tw.1 edge_data.length_m tw.2
                       ctx.alpha ctx.beta ctx.gamma
    let g_new := F.qadd cur.g edge_cost
    let old : F :=
      match st.g_scores neighbor with
      | some q => F.fin q
      | none => F.inf
    if F.blt g_new old then
      let gq := g_new.toQ
      let t_arrival := cur.time + tw.1.toQ
      let h := heuristic ctx.G neighbor ctx.goal ctx.v_max_ms ctx.hav
      { open_set := ⟨F.qadd gq h, st.counter + 1, neighbor, t_arrival, gq⟩ :: st.open_set,
        counter := st.counter + 1,
        g_scores := upd st.g_scores neighbor gq,
        came_from := upd st.came_from neighbor (cur.node, edge_data),
        arrival_times := upd st.arrival_times neighbor t_arrival,
        edge_costs := upd st.edge_costs neighbor ⟨tw.1.toQ, tw.2, edge_data.length_m⟩,
        visited := st.visited }
    else st

/-- The hard-coded expansion cap of `astar_route` (`max_iterations = 100000`
in the source, not the 150000 of `orion_route`). -/
def astar_max_iterations : ℕ := 100000

/-- Per-segment data of the astar result loop: distance, stored (or default)
travel time, and CO₂ recomputed from the stored (or default) speed. -/
def astarSegRaw (G : Graph) (costs : ℕ → Option AInfo) (p : ℕ × ℕ) :
    ℚ × ℚ × ℚ :=
  let ed := G.edgeData p.1 p.2
  let seg_dist := ed.length_m
  let seg_time : ℚ :=
    match costs p.2 with
    | some i => i.travel_time
    | none => seg_dist / (100/9)
  let seg_speed : ℚ :=
    match costs p.2 with
    | some i => i.speed
    | none => 40
  (seg_dist, seg_time, (seg_dist / 1000) * emission_factor seg_speed)

/-- Result construction in the goal branch of `astar_route`
(`nodesExplored = 100000 - max_iterations` with the remaining budget). -/
def buildAstarResult (ctx : ACtx) (st : AState) (cur : Entry)
    (fuel_left : ℕ) : AstarResult :=
  let path := reconstructPath st.came_from ctx.start ctx.goal (st.counter + 1)
  let polyline := path.map (fun n => ((ctx.G.nodeData n).lat, (ctx.G.nodeData n).lng))
  let datas := (path.zip path.tail).map (astarSegRaw ctx.G st.edge_costs)
  { path_nodes := path,
    polyline := polyline,
    distanceKm := (datas.map (fun d => d.1)).sum / 1000,
    durationMin := (datas.map (fun d => d.2.1)).sum / 60,
    co2Grams := (datas.map (fun d => d.2.2)).sum,
    cost := cur.g,
    nodesExplored := astar_max_iterations - fuel_left }

/-- One iteration of the `astar_route` while loop. -/
def astarBody (ctx : ACtx) (fuel_left : ℕ) (st : AState) :
    Sum (Option AstarResult) AState :=
  match popMin st.open_set with
  | none => Sum.inl none
  | some (cur, rest) =>
    let st0 : AState := { st with open_set := rest }
    if cur.node = ctx.goal then
      Sum.inl (some (buildAstarResult ctx st0 cur fuel_left))
    else if cur.node ∈ st0.visited then Sum.inr st0
    else
      let st1 : AState := { st0 with visited := cur.node :: st0.visited }
      Sum.inr ((ctx.G.successors cur.node).foldl (astarRelax ctx cur) st1)

/-- The while loop of `astar_route`, fueled by the remaining iteration
budget; exhaustion yields `none`. -/
def astarLoop (ctx : ACtx) : ℕ → AState → Option AstarResult
  | 0, _ => none
  | fuel+1, st =>
    match astarBody ctx fuel st with
    | Sum.inl r => r
    | Sum.inr st1 => astarLoop ctx fuel st1

/-- The state after `n` continuing iterations of the `astar_route` loop. -/
def astarStates (ctx : ACtx) : ℕ → AState → Option AState
  | 0, st => some st
  | n+1, st =>
    match astarBody ctx n st with
    | Sum.inl _ => none
    | Sum.inr st1 => astarStates ctx n st1

def astarInit (ctx : ACtx) : AState :=
  { open_set := [⟨heuristic ctx.G ctx.start ctx.goal ctx.v_max_ms ctx.hav, 0,
                  ctx.start, ctx.departure, 0⟩],
    counter := 0,
    g_scores := upd (fun _ => none) ctx.start 0,
    came_from := fun _ => none,
    arrival_times := upd (fun _ => none) ctx.start ctx.departure,
    edge_costs := fun _ => none,
    visited := [] }

/-- `astar_route` (defaults `alpha=0.5, beta=0.35, gamma=0.15` are supplied
by callers). -/
def astar_route (G : Graph) (start goal : ℕ) (departure : ℚ)
    (alpha beta gamma : ℚ) (preds : Preds) (hav : HavFn) :
    Option AstarResult :=
  if start ∈ G.nodes ∧ goal ∈ G.nodes then
    let ctx : ACtx :=
      ⟨G, start, goal, departure, alpha, beta, gamma, preds, hav,
       graph_config_v_max_kmh / (18/5)⟩
    astarLoop ctx astar_max_iterations (astarInit ctx)
  else none

end NewAmuo

namespace NewAmuo

/-! Pareto-optimal route set (`compute_pareto_routes` in `orion.py`). -/

structure Preset where
  name : String
  alpha : ℚ
  beta : ℚ
  gamma : ℚ
  delta : ℚ
deriving DecidableEq

/-- The preset palette, in source order (the `shortest` preset of the
docstring is not in the list). -/
def orion_presets : List Preset :=
  [⟨"fastest", 8/10, 1/10, 1/20, 1/20⟩,
   ⟨"greenest", 15/100, 65/100, 15/100, 1/20⟩,
   ⟨"balanced", 4/10, 3/10, 2/10, 1/10⟩,
   ⟨"smoothest", 3/10, 1/10, 55/100, 1/20⟩]

/-- `r2` dominates `r1`: `≤` in all three objectives and `<` in at least
one. -/
def dominatesB (r2 r1 : OrionResult) : Bool :=
  decide (r2.durationMin ≤ r1.durationMin) && decide (r2.co2Grams ≤ r1.co2Grams) &&
  decide (r2.distanceKm ≤ r1.distanceKm) &&
  (decide (r2.durationMin < r1.durationMin) || decide (r2.co2Grams < r1.co2Grams) ||
   decide (r2.distanceKm < r1.distanceKm))

/-- The indexed survivors of the dominance filter: route `i` survives when
no route at a different index dominates it. -/
def pareto_survivors (routes : List OrionResult) : List (ℕ × OrionResult) :=
  routes.enum.filter (fun p =>
    !(routes.enum.any (fun q => decide (q.1 ≠ p.1) && dominatesB q.2 p.2)))

/-- The dominance filter of `compute_pareto_routes` (applied only when more
than one route was produced, as in the source). -/
def pareto_filter (routes : List OrionResult) : List OrionResult :=
  if routes.length ≤ 1 then routes
  else (pareto_survivors routes).map Prod.snd

/-- `compute_pareto_routes`: run `orion_route` once per preset in the fixed
order, tag each result with its preset name, and filter dominated routes.
The wall-clock pair is shared across the four runs (it only feeds
`searchTimeMs`). -/
def compute_pareto_routes (G : Graph) (start goal : ℕ) (departure : ℚ)
    (preds : Preds) (ch : Option Graph) (hav : HavFn) (t0 t1 : ℚ) :
    List OrionResult :=
  let routes := orion_presets.foldl
    (fun acc p =>
      match orion_route G start goal departure p.alpha p.beta p.gamma p.delta
        preds ch hav t0 t1 orion_default_max_iterations with
      | some r => acc ++ [{ r with presetName := some p.name }]
      | none => acc) []
  pareto_filter routes

/-! Re-planning engine (`ReplanningEngine` in `orion.py`) and the
`/api/route/replan` endpoint of `main.py`. -/

/-- Model of the `weights` dictionary handed to `ReplanningEngine.replan`
(each key may be absent). -/
structure WeightsDict where
  alpha : Option ℚ
  beta : Option ℚ
  gamma : Option ℚ
  delta : Option ℚ
deriving DecidableEq

structure HistEntry where
  replan_number : ℕ
  time : ℚ
  cost : ℚ
  distance_km : ℚ
deriving DecidableEq

structure ReplanningEngine where
  replan_interval_s : ℚ
  hysteresis_threshold : ℚ
  max_replans : ℕ
  replan_count : ℕ
  last_replan_time : Option ℚ
  current_route : Option OrionResult
  route_history : List HistEntry
deriving DecidableEq

/-- `ReplanningEngine()` with the constructor defaults. -/
def mkReplanningEngine : ReplanningEngine :=
  ⟨45, 15/100, 20, 0, none, none, []⟩

/-- `ReplanningEngine.should_replan`: refuse at the replan ceiling, then
the OR of the periodic timer (first plan counts), traffic change > 20%,
off-route, and incident triggers. -/
def should_replan (e : ReplanningEngine) (current_time : ℚ)
    (current_position : ℚ × ℚ) (traffic_change_pct : ℚ)
    (is_off_route incident_on_route : Bool) : Bool :=
  if e.max_replans ≤ e.replan_count then false
  else
    match e.last_replan_time with
    | some lt =>
      if e.replan_interval_s ≤ current_time - lt then true
      else if 1/5 < traffic_change_pct then true
      else if is_off_route then true
      else if incident_on_route then true
      else false
    | none => true

/-- The commit branch of `ReplanningEngine.replan`: install the new route,
advance `last_replan_time`, bump the count, append to the history. -/
def commitEngine (e : ReplanningEngine) (current_time : ℚ) (nr : OrionResult) :
    ReplanningEngine :=
  { e with
    current_route := some nr
    last_replan_time := some current_time
    replan_count := e.replan_count + 1
    route_history := e.route_history ++
      [⟨e.replan_count + 1, current_time, nr.cost, nr.distanceKm⟩] }

/-- Body of `ReplanningEngine.replan` after the `orion_route` call produced
`new_route`: hysteresis check against the current route (reject when
`new_cost ≥ current_cost · (1 − θ)`), commit otherwise.  Returns the updated
engine and the value `replan` returns. -/
def replan_with (e : ReplanningEngine) (current_time : ℚ)
    (new_route : Option OrionResult) : ReplanningEngine × Option OrionResult :=
  match new_route with
  | none => (e, none)
  | some nr =>
    match e.current_route with
    | some cr =>
      if cr.cost * (1 - e.hysteresis_threshold) ≤ nr.cost then (e, none)
      else (commitEngine e current_time nr, some nr)
    | none => (commitEngine e current_time nr, some nr)

/-- `ReplanningEngine.replan`: run `orion_route` from the current position
with the weight dictionary (missing keys default to `0.5/0.3/0.15/0.05`),
then apply the hysteresis/commit logic. -/
def replan (e : ReplanningEngine) (G : Graph) (current_node goal : ℕ)
    (current_time : ℚ) (weights : WeightsDict) (preds : Preds)
    (ch : Option Graph) (hav : HavFn) (t0 t1 : ℚ) :
    ReplanningEngine × Option OrionResult :=
  replan_with e current_time
    (orion_route G current_node goal current_time
      (weights.alpha.getD (1/2)) (weights.beta.getD (3/10))
      (weights.gamma.getD (3/20)) (weights.delta.getD (1/20))
      preds ch hav t0 t1 orion_default_max_iterations)

/-- Response shape of the `/api/route/replan` endpoint. -/
inductive ReplanResponse where
  | httpError (code : ℕ) (detail : String)
  | ok (replanned : Bool) (reason : Option String) (route : Option OrionResult)
deriving DecidableEq

/-- The `/api/route/replan` handler of `main.py` after graph load and
departure parsing: nearest-node snapping outcomes are the `Option ℕ`
arguments, the request weights carry only `alpha/beta/gamma` (so `delta`
falls back to its `orion_route` default).  The refusal reason when
`should_replan` is false is the literal string of the source. -/
def replan_route_endpoint (e : ReplanningEngine) (departure : ℚ)
    (current_node goal_node : Option ℕ) (current_position : ℚ × ℚ)
    (traffic_change_pct : ℚ) (is_off_route incident_on_route : Bool)
    (G : Graph) (preds : Preds) (ch : Option Graph) (hav : HavFn)
    (t0 t1 : ℚ) (walpha wbeta wgamma : ℚ) :
    ReplanningEngine × ReplanResponse :=
  match current_node, goal_node with
  | some cn, some gn =>
    if should_replan e departure current_position traffic_change_pct
        is_off_route incident_on_route then
      let weights : WeightsDict := ⟨some walpha, some wbeta, some wgamma, none⟩
      match replan e G cn gn departure weights preds ch hav t0 t1 with
      | (e1, none) =>
        (e1, ReplanResponse.ok false
          (some ("New route not significantly better (hysteresis threshold)")) none)
      | (e1, some nr) => (e1, ReplanResponse.ok true none (some nr))
    else
      (e, ReplanResponse.ok false (some ("Current route is still optimal")) none)
  | _, _ => (e, ReplanResponse.httpError 404 ("Position not reachable"))

end NewAmuo

namespace NewAmuo

/-! Concrete fixtures used by witnesses and counterexamples. -/

/-- Degenerate haversine instantiation (a constant-zero distance). -/
def havZ : HavFn := fun _ _ _ _ => 0

/-- A concrete edge: 1 km residential link at 60 km/h, capacity 1800. -/
def edgeW : EdgeData := ⟨1000, 60, 60, 1800, "residential"⟩

/-- A two-node graph `1 → 2` over `edgeW`. -/
def gW : Graph :=
  { nodes := [1, 2]
    nodeData := fun n => if n = 2 then ⟨0, 1/100⟩ else ⟨0, 0⟩
    edges := [(1, 2)]
    edgeData := fun _ _ => edgeW }

/-- Predictions fixture: edge `1-2` predicted at 30 km/h. -/
def predsW : Preds :=
  some (fun k => if k = (1, 2) then some ⟨some 30⟩ else none)

/-- A route value with the given scalar cost (all other fields inert),
used to exercise the hysteresis logic. -/
def mkCostRoute (c : ℚ) : OrionResult :=
  ⟨"AUMO-ORION", [], [], 0, 0, 0, c, 0, 0, 0, [], 0, 0, 0, 0, 0, 0, none⟩

/-- A route value with the given `(durationMin, co2Grams, distanceKm)`
triple, used to exercise the dominance filter. -/
def mkMetricRoute (dur co2 dist : ℚ) : OrionResult :=
  ⟨"AUMO-ORION", [], [], dist, dur, co2, 0, 0, 0, 0, [], 0, 0, 0, 0, 0, 0, none⟩

/-- Engine holding a current route of cost 100 (defaults otherwise). -/
def e100 : ReplanningEngine :=
  { mkReplanningEngine with
    current_route := some (mkCostRoute 100)
    last_replan_time := some 0 }

/-- Engine that has exhausted its replan ceiling (20 of 20). -/
def e20 : ReplanningEngine :=
  { mkReplanningEngine with
    replan_count := 20
    current_route := some (mkCostRoute 100)
    last_replan_time := some 0 }

/-- Concrete orion search context over `gW`. -/
def ctxW : OCtx :=
  ⟨gW, gW, 1, 2, 0, 1/2, 3/10, 3/20, 1/20, none, havZ, 100/3⟩

/-- Concrete orion state whose closed set already contains node 5. -/
def stW5 : OState :=
  { orionInit ctxW with visited := [5] }

/-- Concrete astar search context over `gW`. -/
def actxW : ACtx :=
  ⟨gW, 1, 2, 0, 1/2, 35/100, 3/20, none, havZ, 100/3⟩

/-- Concrete astar state whose closed set already contains node 5. -/
def astW5 : AState :=
  { astarInit actxW with visited := [5] }

/-- Weight dictionary with every key absent (all defaults apply). -/
def wNone : WeightsDict := ⟨none, none, none, none⟩

/-- The concrete route `orion_route` finds on `gW` at departure time 5
with the default weights. -/
def routeW5 : OrionResult :=
  (orion_route gW 1 2 5 (1/2) (3/10) (3/20) (1/20) none none havZ 0 0
    orion_default_max_iterations).getD (mkCostRoute 0)

/-- The orion state reached from `stW5` after one loop iteration. -/
def stW5next : OState := (orionStates ctxW 0 1 stW5).getD stW5

/-- The astar state reached from `astW5` after one loop iteration. -/
def astW5next : AState := (astarStates actxW 1 astW5).getD astW5

/-- Zero out the wall-clock-derived field of a route result (used to state
determinism of everything else). -/
def stripTime (r : OrionResult) : OrionResult := { r with searchTimeMs := 0 }

/-- The travel time the spec assigns to the BPR fallback branch:
`t₀ · (1 + 0.15 · (volume/capacity)⁴)` with `t₀ = length_m/(ff/3.6)` and
`volume = capacity · volume_frac(hour)`. -/
def bpr_spec_time (edge : EdgeData) (t : ℚ) : ℚ :=
  edge.length_m / (edge.free_flow_speed_kmh / (18/5)) *
    (1 + graph_config_bpr_alpha *
      (edge.capacity * volume_frac (hourFrac t) / edge.capacity) ^ 4)

end NewAmuo

namespace NewAmuo

/-! ## Helper lemmas about the edge-weight kernel -/

theorem bpr_fin (length_m ff volume capacity : ℚ) (hff : 0 < ff) :
    bpr_travel_time length_m ff volume capacity =
      F.fin (length_m / (ff / (18/5)) *
        (1 + graph_config_bpr_alpha *
          (if 0 < capacity then volume / capacity else 0) ^ 4)) := by
  have h : ¬(ff / (18/5) ≤ 0) := not_le.mpr (by positivity)
  simp only [bpr_travel_time]
  rw [if_neg h]

theorem tdw_pred (edge : EdgeData) (t : ℚ) (preds : Preds)
    (key : Option (ℕ × ℕ)) (s : ℚ)
    (h : predicted_speed_of preds key = some s) (hs : 0 < s) :
    time_dependent_weight edge t preds key =
      (F.fin (edge.length_m / (s / (18/5))), s) := by
  simp only [time_dependent_weight, h]
  rw [if_pos hs]

theorem tdw_no_pred (edge : EdgeData) (t : ℚ) (preds : Preds)
    (key : Option (ℕ × ℕ))
    (hnp : ∀ s, predicted_speed_of preds key = some s → s ≤ 0) :
    time_dependent_weight edge t preds key = tdw_fallback edge t := by
  simp only [time_dependent_weight]
  cases h : predicted_speed_of preds key with
  | none => rfl
  | some s =>
    dsimp only
    rw [if_neg (not_lt.mpr (hnp s h))]

theorem tdw_fallback_fst (edge : EdgeData) (t : ℚ)
    (hff : 0 < edge.free_flow_speed_kmh) :
    (tdw_fallback edge t).1 =
      F.fin (edge.length_m / (edge.free_flow_speed_kmh / (18/5)) *
        (1 + graph_config_bpr_alpha *
          (if 0 < edge.capacity then
            edge.capacity * volume_frac (hourFrac t) / edge.capacity
           else 0) ^ 4)) := by
  simp only [tdw_fallback]
  rw [bpr_fin _ _ _ _ hff]

theorem tdw_fin (edge : EdgeData) (t : ℚ) (preds : Preds)
    (key : Option (ℕ × ℕ)) (hff : 0 < edge.free_flow_speed_kmh) :
    ∃ T v, time_dependent_weight edge t preds key = (F.fin T, v) := by
  cases h : predicted_speed_of preds key with
  | some s =>
    by_cases hs : 0 < s
    · exact ⟨_, _, tdw_pred edge t preds key s h hs⟩
    · rw [tdw_no_pred edge t preds key
        (fun s1 h1 => by rw [h] at h1; cases h1; exact not_lt.mp hs)]
      cases hval : (tdw_fallback edge t).1 with
      | fin q => exact ⟨q, (tdw_fallback edge t).2, by rw [← hval]⟩
      | inf => rw [tdw_fallback_fst edge t hff] at hval; exact F.noConfusion hval
  | none =>
    rw [tdw_no_pred edge t preds key (fun s1 h1 => by rw [h] at h1; cases h1)]
    cases hval : (tdw_fallback edge t).1 with
    | fin q => exact ⟨q, (tdw_fallback edge t).2, by rw [← hval]⟩
    | inf => rw [tdw_fallback_fst edge t hff] at hval; exact F.noConfusion hval

end NewAmuo

namespace NewAmuo

theorem vc_guard_eq (capacity vr : ℚ) (hcap : 0 ≤ capacity) :
    (if 0 < capacity then capacity * vr / capacity else 0) =
      capacity * vr / capacity := by
  rcases eq_or_lt_of_le hcap with h | h
  · rw [← h]; simp
  · rw [if_pos h]

theorem bpr_spec_time_pos (edge : EdgeData) (t : ℚ)
    (hlen : 0 < edge.length_m) (hff : 0 < edge.free_flow_speed_kmh) :
    0 < bpr_spec_time edge t := by
  unfold bpr_spec_time graph_config_bpr_alpha
  have h1 : 0 < edge.length_m / (edge.free_flow_speed_kmh / (18/5)) := by
    positivity
  have h2 : (0:ℚ) ≤
      (edge.capacity * volume_frac (hourFrac t) / edge.capacity) ^ 4 := by
    positivity
  nlinarith

theorem tdw_fallback_eq (edge : EdgeData) (t : ℚ) (hlen : 0 < edge.length_m)
    (hff : 0 < edge.free_flow_speed_kmh) (hcap : 0 ≤ edge.capacity) :
    tdw_fallback edge t =
      (F.fin (bpr_spec_time edge t),
       edge.length_m / bpr_spec_time edge t * (18/5)) := by
  have hq := bpr_spec_time_pos edge t hlen hff
  simp only [tdw_fallback]
  rw [bpr_fin _ _ _ _ hff, vc_guard_eq _ _ hcap]
  unfold bpr_spec_time
  dsimp only
  rw [if_pos]
  exact hq

end NewAmuo

namespace NewAmuo

theorem tdw_fallback_pos (edge : EdgeData) (t : ℚ) (hlen : 0 < edge.length_m)
    (hff : 0 < edge.free_flow_speed_kmh) :
    ∃ q, (tdw_fallback edge t).1 = F.fin q ∧ 0 < q := by
  rw [tdw_fallback_fst edge t hff]
  refine ⟨_, rfl, ?_⟩
  have h1 : 0 < edge.length_m / (edge.free_flow_speed_kmh / (18/5)) := by
    positivity
  have h2 : (0:ℚ) ≤
      (if 0 < edge.capacity then
        edge.capacity * volume_frac (hourFrac t) / edge.capacity
       else 0) ^ 4 := by
    positivity
  unfold graph_config_bpr_alpha
  nlinarith

theorem tdw_nopred_of_nonpos (preds : Preds) (key : Option (ℕ × ℕ)) (s : ℚ)
    (h : predicted_speed_of preds key = some s) (hs : ¬0 < s) :
    ∀ s1, predicted_speed_of preds key = some s1 → s1 ≤ 0 := by
  intro s1 h1
  rw [h] at h1
  cases h1
  exact not_lt.mp hs

/-- C9: for every edge and time, whenever `length_m > 0` and
`free_flow_speed > 0`, the returned `travel_time_s` is a finite, strictly
positive number — in the prediction-override branch as well as in the BPR
fallback branch. -/
theorem c9_travel_time_pos (edge : EdgeData) (t : ℚ) (preds : Preds)
    (key : Option (ℕ × ℕ)) (hlen : 0 < edge.length_m)
    (hff : 0 < edge.free_flow_speed_kmh) :
    ∃ q, (time_dependent_weight edge t preds key).1 = F.fin q ∧ 0 < q := by
  cases h : predicted_speed_of preds key with
  | some s =>
    by_cases hs : 0 < s
    · rw [tdw_pred edge t preds key s h hs]
      exact ⟨_, rfl, by positivity⟩
    · rw [tdw_no_pred edge t preds key (tdw_nopred_of_nonpos preds key s h hs)]
      exact tdw_fallback_pos edge t hlen hff
  | none =>
    rw [tdw_no_pred edge t preds key (fun s1 h1 => by rw [h] at h1; cases h1)]
    exact tdw_fallback_pos edge t hlen hff

/-- Witness for C9 at a concrete edge (1 km, 60 km/h free flow). -/
theorem c9_travel_time_pos_witness :
    ∃ q, (time_dependent_weight edgeW 0 none none).1 = F.fin q ∧ 0 < q :=
  c9_travel_time_pos edgeW 0 none none (by norm_num [edgeW]) (by norm_num [edgeW])

end NewAmuo

namespace NewAmuo

/-- C2: for every edge and time (with the data-model invariants
`length_m > 0` and `capacity ≥ 0`): a positive predicted speed for the edge
key gives travel time `length_m / (v/3.6)` with that speed returned;
otherwise the BPR fallback applies, with the time-of-day volume table
(0.85 peak, 0.6 midday, 0.4 shoulder, 0.15 night),
`t = t₀ · (1 + 0.15 · (volume/capacity)⁴)` and effective speed
`length_m / t · 3.6`; and when `free_flow_speed ≤ 0` the travel time is
`+∞`. -/
theorem c2_time_dependent_weight_cases (edge : EdgeData) (t : ℚ)
    (preds : Preds) (key : Option (ℕ × ℕ))
    (hlen : 0 < edge.length_m) (hcap : 0 ≤ edge.capacity) :
    (∀ s, predicted_speed_of preds key = some s → 0 < s →
      time_dependent_weight edge t preds key =
        (F.fin (edge.length_m / (s / (18/5))), s)) ∧
    ((∀ s, predicted_speed_of preds key = some s → s ≤ 0) →
      (0 < edge.free_flow_speed_kmh →
        time_dependent_weight edge t preds key =
          (F.fin (bpr_spec_time edge t),
           edge.length_m / bpr_spec_time edge t * (18/5))) ∧
      (edge.free_flow_speed_kmh ≤ 0 →
        (time_dependent_weight edge t preds key).1 = F.inf)) ∧
    (∀ h : ℚ, (7 ≤ h ∧ h < 9) ∨ (17 ≤ h ∧ h < 19) → volume_frac h = 85/100) ∧
    (∀ h : ℚ, 9 ≤ h ∧ h < 17 → volume_frac h = 6/10) ∧
    (∀ h : ℚ, (5 ≤ h ∧ h < 7) ∨ (19 ≤ h ∧ h < 22) → volume_frac h = 4/10) ∧
    (∀ h : ℚ, ¬((7 ≤ h ∧ h < 9) ∨ (17 ≤ h ∧ h < 19)) →
      ¬(9 ≤ h ∧ h < 17) → ¬((5 ≤ h ∧ h < 7) ∨ (19 ≤ h ∧ h < 22)) →
      volume_frac h = 15/100) := by
  refine ⟨?_, ?_, ?_, ?_, ?_, ?_⟩
  · intro s h hs
    exact tdw_pred edge t preds key s h hs
  · intro hnp
    rw [tdw_no_pred edge t preds key hnp]
    constructor
    · intro hff
      exact tdw_fallback_eq edge t hlen hff hcap
    · intro hffle
      have h36 : edge.free_flow_speed_kmh / (18/5) ≤ 0 :=
        div_nonpos_of_nonpos_of_nonneg hffle (by norm_num)
      simp only [tdw_fallback, bpr_travel_time]
      rw [if_pos h36]
  · intro h hcond
    unfold volume_frac
    rw [if_pos hcond]
  · intro h hcond
    have hn1 : ¬((7 ≤ h ∧ h < 9) ∨ (17 ≤ h ∧ h < 19)) := by
      rintro (⟨a, b⟩ | ⟨a, b⟩) <;> linarith [hcond.1, hcond.2]
    unfold volume_frac
    rw [if_neg hn1, if_pos hcond]
  · intro h hcond
    have hn1 : ¬((7 ≤ h ∧ h < 9) ∨ (17 ≤ h ∧ h < 19)) := by
      rcases hcond with ⟨a, b⟩ | ⟨a, b⟩ <;>
        rintro (⟨c, d⟩ | ⟨c, d⟩) <;> linarith
    have hn2 : ¬(9 ≤ h ∧ h < 17) := by
      rcases hcond with ⟨a, b⟩ | ⟨a, b⟩ <;> rintro ⟨c, d⟩ <;> linarith
    unfold volume_frac
    rw [if_neg hn1, if_neg hn2, if_pos hcond]
  · intro h hn1 hn2 hn3
    unfold volume_frac
    rw [if_neg hn1, if_neg hn2, if_neg hn3]

/-- Witness for C2: at the concrete edge with a 30 km/h prediction the
travel time is `1000/(30/3.6) = 120 s`, and at midnight without a
prediction the BPR night factor applies. -/
theorem c2_time_dependent_weight_cases_witness :
    time_dependent_weight edgeW 0 predsW (some (1, 2)) = (F.fin 120, 30) ∧
    volume_frac (hourFrac 0) = 15/100 := by
  constructor
  · have h := (c2_time_dependent_weight_cases edgeW 0 predsW (some (1, 2))
      (by norm_num [edgeW]) (by norm_num [edgeW])).1 30 (by decide) (by norm_num)
    rw [h]
    have : edgeW.length_m / (30 / (18/5)) = 120 := by norm_num [edgeW]
    rw [this]
  · have h := (c2_time_dependent_weight_cases edgeW 0 predsW (some (1, 2))
      (by norm_num [edgeW]) (by norm_num [edgeW])).2.2.2.2.2
    have h0 : hourFrac 0 = 0 := by decide
    rw [h0]
    exact h 0 (by rintro (⟨a, _⟩ | ⟨a, _⟩) <;> norm_num at a)
      (by rintro ⟨a, _⟩; norm_num at a) (by rintro (⟨a, _⟩ | ⟨a, _⟩) <;> norm_num at a)

end NewAmuo

namespace NewAmuo

/-- C1: for every edge, time and weights, the scalarized edge cost equals
`α·(T/60) + β·(length_km·EF(v)·(1+0.5·ρ)/100) + γ·ρ + δ·detour` with
`ρ = max(0, min(1, 1 − v/v_free))`, and the breakdown carries exactly this
travel time, speed, CO₂, congestion and distance (stated under the
data-model invariant `free_flow_speed > 0`, without which the code
substitutes `ρ = 0` instead of dividing by zero). -/
theorem c1_extended_edge_cost_formula (edge : EdgeData) (t : ℚ)
    (preds : Preds) (key : Option (ℕ × ℕ))
    (alpha beta gamma delta detour : ℚ)
    (hff : 0 < edge.free_flow_speed_kmh) :
    ∃ T v,
      time_dependent_weight edge t preds key = (F.fin T, v) ∧
      extended_edge_cost edge t preds key alpha beta gamma delta detour =
        (F.fin (alpha * (T / 60) +
            beta * (edge.length_m / 1000 * emission_factor v *
              (1 + 1/2 * max 0 (min 1 (1 - v / edge.free_flow_speed_kmh))) / 100) +
            gamma * max 0 (min 1 (1 - v / edge.free_flow_speed_kmh)) +
            delta * detour),
          ⟨F.fin T, v,
           edge.length_m / 1000 * emission_factor v *
             (1 + 1/2 * max 0 (min 1 (1 - v / edge.free_flow_speed_kmh))),
           max 0 (min 1 (1 - v / edge.free_flow_speed_kmh)),
           edge.length_m,
           F.fin (alpha * (T / 60) +
             beta * (edge.length_m / 1000 * emission_factor v *
               (1 + 1/2 * max 0 (min 1 (1 - v / edge.free_flow_speed_kmh))) / 100) +
             gamma * max 0 (min 1 (1 - v / edge.free_flow_speed_kmh)) +
             delta * detour)⟩) := by
  obtain ⟨T, v, htw⟩ := tdw_fin edge t preds key hff
  refine ⟨T, v, htw, ?_⟩
  simp only [extended_edge_cost, htw]
  rw [if_pos hff]
  simp only [Prod.mk.injEq, Breakdown.mk.injEq, F.fin.injEq]
  and_intros <;> first | rfl | trivial | ring

/-- Witness for C1 at a concrete edge with a 30 km/h prediction. -/
theorem c1_extended_edge_cost_formula_witness :
    ∃ T v,
      time_dependent_weight edgeW 0 predsW (some (1, 2)) = (F.fin T, v) ∧
      extended_edge_cost edgeW 0 predsW (some (1, 2)) (1/2) (3/10) (3/20)
          (1/20) 0 =
        (F.fin ((1/2) * (T / 60) +
            (3/10) * (edgeW.length_m / 1000 * emission_factor v *
              (1 + 1/2 * max 0 (min 1 (1 - v / edgeW.free_flow_speed_kmh))) / 100) +
            (3/20) * max 0 (min 1 (1 - v / edgeW.free_flow_speed_kmh)) +
            (1/20) * 0),
          ⟨F.fin T, v,
           edgeW.length_m / 1000 * emission_factor v *
             (1 + 1/2 * max 0 (min 1 (1 - v / edgeW.free_flow_speed_kmh))),
           max 0 (min 1 (1 - v / edgeW.free_flow_speed_kmh)),
           edgeW.length_m,
           F.fin ((1/2) * (T / 60) +
             (3/10) * (edgeW.length_m / 1000 * emission_factor v *
               (1 + 1/2 * max 0 (min 1 (1 - v / edgeW.free_flow_speed_kmh))) / 100) +
             (3/20) * max 0 (min 1 (1 - v / edgeW.free_flow_speed_kmh)) +
             (1/20) * 0)⟩) :=
  c1_extended_edge_cost_formula edgeW 0 predsW (some (1, 2)) (1/2) (3/10)
    (3/20) (1/20) 0 (by norm_num [edgeW])

end NewAmuo

namespace NewAmuo

/-- C3 counterexample: the fallback `astar_route` caps expansions at a
hard-coded 100000, so the claimed default of 150000 does not hold for both
entry points. -/
theorem c3_astar_cap_counterexample :
    astar_max_iterations = 100000 ∧ astar_max_iterations ≠ 150000 := by
  exact ⟨rfl, by decide⟩

/-- C3 (amended): `orion_route`'s expansion cap defaults to 150000 while
`astar_route` uses a fixed cap of 100000; in both searches, exhausting the
cap before the goal is popped returns `none` (no route found), and an
`orion_route` call whose entire budget is exhausted returns `none` for
every input. -/
theorem c3_expansion_caps :
    orion_default_max_iterations = 150000 ∧
    astar_max_iterations = 100000 ∧
    (∀ (ctx : OCtx) (tms : ℚ) (st : OState), orionLoop ctx tms 0 st = none) ∧
    (∀ (ctx : ACtx) (st : AState), astarLoop ctx 0 st = none) ∧
    (∀ (G : Graph) (start goal : ℕ) (departure alpha beta gamma delta : ℚ)
       (preds : Preds) (ch : Option Graph) (hav : HavFn) (t0 t1 : ℚ),
      orion_route G start goal departure alpha beta gamma delta preds ch hav
        t0 t1 0 = none) := by
  refine ⟨rfl, rfl, fun _ _ _ => rfl, fun _ _ => rfl, ?_⟩
  intro G start goal departure alpha beta gamma delta preds ch hav t0 t1
  unfold orion_route
  split <;> rfl

/-- C4: with a current route of cost `J_current` and the default
`θ = 0.15`, a replan call commits its candidate route iff
`J_new < (1 − θ)·J_current`; on commit `last_replan_time` advances to the
call time, on rejection the engine is unchanged; concretely at
`J_current = 100` a candidate of cost 90 is rejected and one of cost 80 is
accepted. -/
theorem c4_replan_hysteresis :
    (∀ (e : ReplanningEngine) (G : Graph) (cn gn : ℕ) (t : ℚ)
       (w : WeightsDict) (preds : Preds) (ch : Option Graph) (hav : HavFn)
       (t0 t1 : ℚ) (cr nr : OrionResult),
      e.hysteresis_threshold = 15/100 →
      e.current_route = some cr →
      orion_route G cn gn t (w.alpha.getD (1/2)) (w.beta.getD (3/10))
        (w.gamma.getD (3/20)) (w.delta.getD (1/20)) preds ch hav t0 t1
        orion_default_max_iterations = some nr →
      ((replan e G cn gn t w preds ch hav t0 t1).2 = some nr ↔
        nr.cost < (1 - 15/100) * cr.cost) ∧
      ((replan e G cn gn t w preds ch hav t0 t1).2 = some nr →
        (replan e G cn gn t w preds ch hav t0 t1).1.current_route = some nr ∧
        (replan e G cn gn t w preds ch hav t0 t1).1.last_replan_time = some t) ∧
      ((replan e G cn gn t w preds ch hav t0 t1).2 = none →
        (replan e G cn gn t w preds ch hav t0 t1).1 = e)) ∧
    replan_with e100 5 (some (mkCostRoute 90)) = (e100, none) ∧
    (replan_with e100 5 (some (mkCostRoute 80))).2 = some (mkCostRoute 80) ∧
    (replan_with e100 5 (some (mkCostRoute 80))).1.last_replan_time = some 5 := by
  refine ⟨?_, by decide, by decide, by decide⟩
  intro e G cn gn t w preds ch hav t0 t1 cr nr hθ hcur horion
  have hrepl : replan e G cn gn t w preds ch hav t0 t1 =
      replan_with e t (some nr) := by
    unfold replan
    rw [horion]
  rw [hrepl]
  unfold replan_with
  rw [hcur, hθ]
  dsimp only
  by_cases hc : cr.cost * (1 - 15/100) ≤ nr.cost
  · rw [if_pos hc]
    refine ⟨?_, ?_, ?_⟩
    · constructor
      · intro h; cases h
      · intro h
        exact absurd h (not_lt.mpr (by linarith [hc]))
    · intro h; cases h
    · intro _; rfl
  · rw [if_neg hc]
    refine ⟨?_, ?_, ?_⟩
    · constructor
      · intro _
        have := lt_of_not_le hc
        linarith
      · intro _; rfl
    · intro _
      exact ⟨rfl, rfl⟩
    · intro h; cases h

/-- Witness for C4: on the concrete two-node graph the candidate costs far
less than `0.85 · 100`, so the hysteresis iff holds with both sides true. -/
theorem c4_replan_hysteresis_witness :
    ((replan e100 gW 1 2 5 wNone none none havZ 0 0).2 = some routeW5 ↔
      routeW5.cost < (1 - 15/100) * (mkCostRoute 100).cost) :=
  (c4_replan_hysteresis.1 e100 gW 1 2 5 wNone none none havZ 0 0
    (mkCostRoute 100) routeW5 (by decide) rfl (by decide)).1

/-- C5 counterexample: at the replan ceiling the endpoint does refuse
(`replanned = false`), but its reason is the literal string
`"Current route is still optimal"`, not `"ceiling"`. -/
theorem c5_ceiling_reason_counterexample :
    replan_route_endpoint e20 0 (some 1) (some 2) (0, 0) 1 true true gW
        none none havZ 0 0 (1/2) (3/10) (3/20) =
      (e20, ReplanResponse.ok false
        (some ("Current route is still optimal")) none) ∧
    some ("Current route is still optimal") ≠ some ("ceiling") := by
  exact ⟨by decide, by decide⟩

/-- C5 (amended): once `replan_count` has reached `max_replans`, every
replan call is refused regardless of triggers — `should_replan` is false
and the endpoint answers `replanned = false` — with reason
`"Current route is still optimal"` (the source has no `"ceiling"` reason
string). -/
theorem c5_ceiling_refusal (e : ReplanningEngine) (departure : ℚ)
    (cn gn : ℕ) (pos : ℚ × ℚ) (tc : ℚ) (off inc : Bool) (G : Graph)
    (preds : Preds) (ch : Option Graph) (hav : HavFn) (t0 t1 : ℚ)
    (wa wb wg : ℚ) (hceil : e.max_replans ≤ e.replan_count) :
    should_replan e departure pos tc off inc = false ∧
    replan_route_endpoint e departure (some cn) (some gn) pos tc off inc G
        preds ch hav t0 t1 wa wb wg =
      (e, ReplanResponse.ok false
        (some ("Current route is still optimal")) none) := by
  have hsr : should_replan e departure pos tc off inc = false := by
    unfold should_replan
    rw [if_pos hceil]
  refine ⟨hsr, ?_⟩
  unfold replan_route_endpoint
  simp [hsr]

/-- Witness for C5 at the concrete exhausted engine (20 of 20 replans). -/
theorem c5_ceiling_refusal_witness :
    should_replan e20 7 (0, 0) 1 true true = false ∧
    replan_route_endpoint e20 7 (some 1) (some 2) (0, 0) 1 true true gW
        none none havZ 0 0 (1/2) (3/10) (3/20) =
      (e20, ReplanResponse.ok false
        (some ("Current route is still optimal")) none) :=
  c5_ceiling_refusal e20 7 1 2 (0, 0) 1 true true gW none none havZ 0 0
    (1/2) (3/10) (3/20) (by decide)

end NewAmuo

namespace NewAmuo

theorem dominatesB_self (r : OrionResult) : dominatesB r r = false := by
  simp [dominatesB]

theorem mem_pareto_survivors (routes : List OrionResult) (i : ℕ)
    (r1 : OrionResult) :
    (i, r1) ∈ pareto_survivors routes ↔
      ((i, r1) ∈ routes.enum ∧
        ∀ j r2, (j, r2) ∈ routes.enum → j ≠ i → dominatesB r2 r1 = false) := by
  unfold pareto_survivors
  constructor
  · intro h
    have h1 := (List.mem_filter.mp h).1
    have h2 := (List.mem_filter.mp h).2
    refine ⟨h1, ?_⟩
    intro j r2 hj hne
    by_contra hdom
    rw [Bool.not_eq_false] at hdom
    have hany : routes.enum.any
        (fun q => decide (q.1 ≠ (i, r1).1) && dominatesB q.2 (i, r1).2) = true :=
      List.any_eq_true.mpr ⟨(j, r2), hj, by simp [hne, hdom]⟩
    rw [hany] at h2
    cases h2
  · rintro ⟨h1, h2⟩
    refine List.mem_filter.mpr ⟨h1, ?_⟩
    rw [Bool.not_eq_true']
    refine List.any_eq_false.mpr ?_
    rintro ⟨j, r2⟩ hq
    simp only [Bool.and_eq_true, decide_eq_true_eq, not_and]
    intro hne
    rw [h2 j r2 hq hne]
    simp

/-- C6: a Pareto route `r₁` (at index `i`) is removed exactly when another
route `r₂` (at a different index) satisfies `r₂ ≤ r₁` in duration, CO₂ and
distance with at least one strict inequality; consequently no route of the
returned set dominates another. -/
theorem c6_pareto_dominance :
    (∀ (routes : List OrionResult) (i : ℕ) (r1 : OrionResult),
      (i, r1) ∈ routes.enum →
      ((∃ j r2, (j, r2) ∈ routes.enum ∧ j ≠ i ∧ dominatesB r2 r1 = true) ↔
        (i, r1) ∉ pareto_survivors routes)) ∧
    (∀ (routes : List OrionResult) (a b : OrionResult),
      a ∈ pareto_filter routes → b ∈ pareto_filter routes →
      dominatesB a b = false) := by
  constructor
  · intro routes i r1 hmem
    rw [mem_pareto_survivors]
    constructor
    · rintro ⟨j, r2, hj, hne, hdom⟩ ⟨_, hall⟩
      have := hall j r2 hj hne
      rw [hdom] at this
      cases this
    · intro hnot
      by_contra hne
      push_neg at hne
      apply hnot
      refine ⟨hmem, ?_⟩
      intro j r2 hj hji
      by_contra hdom
      rw [Bool.not_eq_false] at hdom
      exact absurd hdom (hne j r2 hj hji)
  · intro routes a b ha hb
    unfold pareto_filter at ha hb
    by_cases hlen : routes.length ≤ 1
    · rw [if_pos hlen] at ha hb
      rcases routes with _ | ⟨x, _ | ⟨y, tl⟩⟩
      · cases ha
      · rw [List.mem_singleton] at ha hb
        rw [ha, hb]
        exact dominatesB_self x
      · exfalso
        simp only [List.length_cons] at hlen
        omega
    · rw [if_neg hlen] at ha hb
      obtain ⟨⟨i, a1⟩, hsa, haeq⟩ := List.mem_map.mp ha
      obtain ⟨⟨j, b1⟩, hsb, hbeq⟩ := List.mem_map.mp hb
      cases haeq
      cases hbeq
      obtain ⟨hmema, _⟩ := (mem_pareto_survivors routes i a1).mp hsa
      obtain ⟨hmemb, hallb⟩ := (mem_pareto_survivors routes j b1).mp hsb
      by_cases hij : i = j
      · subst hij
        have : a1 = b1 := by
          rw [List.mk_mem_enum_iff_getElem?] at hmema hmemb
          rw [hmema] at hmemb
          cases hmemb
          rfl
        rw [this]
        exact dominatesB_self b1
      · exact hallb i a1 hmema hij

/-- Witness for C6: on a concrete two-route list the surviving route does
not dominate itself. -/
theorem c6_pareto_dominance_witness :
    dominatesB (mkMetricRoute 1 1 1) (mkMetricRoute 1 1 1) = false :=
  c6_pareto_dominance.2 [mkMetricRoute 1 1 1, mkMetricRoute 2 2 2]
    (mkMetricRoute 1 1 1) (mkMetricRoute 1 1 1) (by decide) (by decide)

end NewAmuo

namespace NewAmuo

theorem dominatesB_eq_triple (a b : OrionResult)
    (h1 : a.durationMin = b.durationMin) (h2 : a.co2Grams = b.co2Grams)
    (h3 : a.distanceKm = b.distanceKm) : dominatesB a b = false := by
  simp [dominatesB, h1, h2, h3]

/-- C7 counterexample: on the concrete two-node graph every preset yields
the same node path `[1, 2]`, and the returned set keeps that duplicate path
four times — there is no deduplication by path-node equality. -/
theorem c7_no_dedup_counterexample :
    (compute_pareto_routes gW 1 2 0 none none havZ 0 0).map
        (fun r => r.path_nodes) = [[1, 2], [1, 2], [1, 2], [1, 2]] ∧
    ¬((compute_pareto_routes gW 1 2 0 none none havZ 0 0).map
        (fun r => r.path_nodes)).Nodup := by
  exact ⟨by decide, by decide⟩

/-- C7 (amended): the preset order is fixed (fastest, greenest, balanced,
smoothest), but duplicate paths from different presets are all kept: a set
of routes whose `(duration, co2, distance)` triples all coincide passes the
dominance filter unchanged, because equal triples never dominate. -/
theorem c7_presets_and_duplicates :
    orion_presets.map Preset.name =
      ["fastest", "greenest", "balanced", "smoothest"] ∧
    (∀ routes : List OrionResult,
      (∀ a b, a ∈ routes → b ∈ routes →
        a.durationMin = b.durationMin ∧ a.co2Grams = b.co2Grams ∧
        a.distanceKm = b.distanceKm) →
      pareto_filter routes = routes) := by
  refine ⟨rfl, ?_⟩
  intro routes hsame
  unfold pareto_filter
  by_cases hlen : routes.length ≤ 1
  · rw [if_pos hlen]
  · rw [if_neg hlen]
    unfold pareto_survivors
    have hfil : routes.enum.filter
        (fun p => !(routes.enum.any
          (fun q => decide (q.1 ≠ p.1) && dominatesB q.2 p.2))) =
        routes.enum := by
      refine List.filter_eq_self.mpr ?_
      intro p hp
      rw [Bool.not_eq_true']
      refine List.any_eq_false.mpr ?_
      intro q hq
      simp only [Bool.and_eq_true, decide_eq_true_eq, not_and]
      intro _
      have hqm : q.2 ∈ routes :=
        List.getElem?_mem (List.mem_enum_iff_getElem?.mp hq)
      have hpm : p.2 ∈ routes :=
        List.getElem?_mem (List.mem_enum_iff_getElem?.mp hp)
      obtain ⟨h1, h2, h3⟩ := hsame q.2 p.2 hqm hpm
      rw [dominatesB_eq_triple q.2 p.2 h1 h2 h3]
      simp
    rw [hfil, List.enum_map_snd]

/-- Witness for C7 (amended): a two-element list of identical routes passes
the filter unchanged. -/
theorem c7_presets_and_duplicates_witness :
    pareto_filter [mkMetricRoute 1 1 1, mkMetricRoute 1 1 1] =
      [mkMetricRoute 1 1 1, mkMetricRoute 1 1 1] := by
  refine c7_presets_and_duplicates.2 _ ?_
  intro a b ha hb
  have h : ∀ c ∈ [mkMetricRoute 1 1 1, mkMetricRoute 1 1 1],
      c = mkMetricRoute 1 1 1 := by decide
  rw [h a ha, h b hb]
  exact ⟨rfl, rfl, rfl⟩

end NewAmuo

namespace NewAmuo

theorem orionBody_strip (ctx : OCtx) (a b : ℚ) (st : OState) :
    (∃ st1, orionBody ctx a st = Sum.inr st1 ∧ orionBody ctx b st = Sum.inr st1) ∨
    (∃ r1 r2, orionBody ctx a st = Sum.inl r1 ∧ orionBody ctx b st = Sum.inl r2 ∧
      r1.map stripTime = r2.map stripTime) := by
  unfold orionBody
  cases hpop : popMin st.open_set with
  | none => right; exact ⟨none, none, rfl, rfl, rfl⟩
  | some pr =>
    obtain ⟨cur, rest⟩ := pr
    dsimp only
    by_cases hg : cur.node = ctx.goal
    · rw [if_pos hg, if_pos hg]
      right
      refine ⟨_, _, rfl, rfl, ?_⟩
      rfl
    · rw [if_neg hg, if_neg hg]
      left
      split
      · exact ⟨_, rfl, rfl⟩
      · exact ⟨_, rfl, rfl⟩

theorem orionLoop_stripTime (ctx : OCtx) (a b : ℚ) :
    ∀ (fuel : ℕ) (st : OState),
      (orionLoop ctx a fuel st).map stripTime =
        (orionLoop ctx b fuel st).map stripTime := by
  intro fuel
  induction fuel with
  | zero => intro st; rfl
  | succ n ih =>
    intro st
    rcases orionBody_strip ctx a b st with ⟨st1, ha, hb⟩ | ⟨r1, r2, ha, hb, hr⟩
    · simp only [orionLoop, ha, hb]
      exact ih st1
    · simp only [orionLoop, ha, hb]
      exact hr

/-- C8 counterexample: two `plan` runs with identical graph, endpoints,
departure time, weights and predictions snapshot — differing only in the
wall-clock readings, which are not among the claimed inputs — return route
results that differ in the `searchTimeMs` field. -/
theorem c8_wall_clock_counterexample :
    (orion_route gW 1 2 0 (1/2) (3/10) (3/20) (1/20) none none havZ 0 0
        orion_default_max_iterations).map (fun r => r.searchTimeMs) = some 0 ∧
    (orion_route gW 1 2 0 (1/2) (3/10) (3/20) (1/20) none none havZ 0 (1/1000)
        orion_default_max_iterations).map (fun r => r.searchTimeMs) = some 1 ∧
    orion_route gW 1 2 0 (1/2) (3/10) (3/20) (1/20) none none havZ 0 0
        orion_default_max_iterations ≠
      orion_route gW 1 2 0 (1/2) (3/10) (3/20) (1/20) none none havZ 0 (1/1000)
        orion_default_max_iterations := by
  exact ⟨by decide, by decide, by decide⟩

/-- C8 (amended): the route result is a function of the claimed inputs in
every field except the wall-clock-derived `searchTimeMs`: two runs with the
same graph, endpoints, departure time, weights, predictions snapshot, CH
overlay, haversine and iteration budget but arbitrary clock readings agree
once `searchTimeMs` is zeroed out (so two runs with identical clock
readings are identical in every field). -/
theorem c8_determinism_modulo_clock (G : Graph) (start goal : ℕ)
    (departure alpha beta gamma delta : ℚ) (preds : Preds)
    (ch : Option Graph) (hav : HavFn) (t0 t1 u0 u1 : ℚ) (mi : ℕ) :
    (orion_route G start goal departure alpha beta gamma delta preds ch hav
        t0 t1 mi).map stripTime =
      (orion_route G start goal departure alpha beta gamma delta preds ch hav
        u0 u1 mi).map stripTime := by
  unfold orion_route
  by_cases h : start ∈ G.nodes ∧ goal ∈ G.nodes
  · rw [if_pos h, if_pos h]
    exact orionLoop_stripTime _ _ _ mi _
  · rw [if_neg h, if_neg h]

end NewAmuo

namespace NewAmuo

theorem orionRelax_visited (ctx : OCtx) (cur : Entry) (st : OState)
    (nbr : ℕ) : (orionRelax ctx cur st nbr).visited = st.visited := by
  unfold orionRelax
  split
  · rfl
  · dsimp only
    split
    · rfl
    · rfl

theorem orionRelax_frozen (ctx : OCtx) (cur : Entry) (st : OState)
    (nbr v : ℕ) (hv : v ∈ st.visited) :
    (orionRelax ctx cur st nbr).g_scores v = st.g_scores v ∧
    (orionRelax ctx cur st nbr).came_from v = st.came_from v ∧
    (orionRelax ctx cur st nbr).arrival_times v = st.arrival_times v ∧
    (orionRelax ctx cur st nbr).edge_details v = st.edge_details v := by
  unfold orionRelax
  split
  · exact ⟨rfl, rfl, rfl, rfl⟩
  · rename_i hnbr
    dsimp only
    split
    · have hne : v ≠ nbr := fun h => hnbr (h ▸ hv)
      refine ⟨?_, ?_, ?_, ?_⟩ <;> simp [upd, hne]
    · exact ⟨rfl, rfl, rfl, rfl⟩

theorem orionRelax_foldl_frozen (ctx : OCtx) (cur : Entry) (l : List ℕ) :
    ∀ (st : OState) (v : ℕ), v ∈ st.visited →
      (l.foldl (orionRelax ctx cur) st).visited = st.visited ∧
      (l.foldl (orionRelax ctx cur) st).g_scores v = st.g_scores v ∧
      (l.foldl (orionRelax ctx cur) st).came_from v = st.came_from v ∧
      (l.foldl (orionRelax ctx cur) st).arrival_times v = st.arrival_times v ∧
      (l.foldl (orionRelax ctx cur) st).edge_details v = st.edge_details v := by
  induction l with
  | nil => exact fun st v _ => ⟨rfl, rfl, rfl, rfl, rfl⟩
  | cons x xs ih =>
    intro st v hv
    simp only [List.foldl_cons]
    have hvis := orionRelax_visited ctx cur st x
    obtain ⟨f1, f2, f3, f4⟩ := orionRelax_frozen ctx cur st x v hv
    have hv1 : v ∈ (orionRelax ctx cur st x).visited := by
      rw [hvis]; exact hv
    obtain ⟨a, b, c, d, e⟩ := ih (orionRelax ctx cur st x) v hv1
    exact ⟨a.trans hvis, b.trans f1, c.trans f2, d.trans f3, e.trans f4⟩

theorem orionBody_frozen (ctx : OCtx) (tms : ℚ) (st st1 : OState)
    (h : orionBody ctx tms st = Sum.inr st1) (v : ℕ) (hv : v ∈ st.visited) :
    v ∈ st1.visited ∧
    st1.g_scores v = st.g_scores v ∧
    st1.came_from v = st.came_from v ∧
    st1.arrival_times v = st.arrival_times v ∧
    st1.edge_details v = st.edge_details v := by
  unfold orionBody at h
  cases hpop : popMin st.open_set with
  | none => rw [hpop] at h; cases h
  | some pr =>
    obtain ⟨cur, rest⟩ := pr
    rw [hpop] at h
    dsimp only at h
    by_cases hg : cur.node = ctx.goal
    · rw [if_pos hg] at h; cases h
    · rw [if_neg hg] at h
      split at h
      · injection h with h
        subst h
        exact ⟨hv, rfl, rfl, rfl, rfl⟩
      · injection h with h
        subst h
        have hv1 : v ∈ (cur.node :: st.visited) := List.mem_cons_of_mem _ hv
        obtain ⟨a, b, c, d, e⟩ := orionRelax_foldl_frozen ctx cur
          (ctx.searchG.successors cur.node)
          ⟨rest, st.counter, st.g_scores, st.came_from, st.arrival_times,
           st.edge_details, cur.node :: st.visited, st.nodes_explored + 1⟩
          v hv1
        refine ⟨?_, b, c, d, e⟩
        rw [a]
        exact hv1

theorem orionStates_frozen (ctx : OCtx) (tms : ℚ) :
    ∀ (n : ℕ) (st st1 : OState), orionStates ctx tms n st = some st1 →
      ∀ v ∈ st.visited,
        v ∈ st1.visited ∧
        st1.g_scores v = st.g_scores v ∧
        st1.came_from v = st.came_from v ∧
        st1.arrival_times v = st.arrival_times v ∧
        st1.edge_details v = st.edge_details v := by
  intro n
  induction n with
  | zero =>
    intro st st1 h v hv
    cases h
    exact ⟨hv, rfl, rfl, rfl, rfl⟩
  | succ m ih =>
    intro st st1 h v hv
    unfold orionStates at h
    cases hb : orionBody ctx tms st with
    | inl r => rw [hb] at h; cases h
    | inr st2 =>
      rw [hb] at h
      obtain ⟨a1, b1, c1, d1, e1⟩ := orionBody_frozen ctx tms st st2 hb v hv
      obtain ⟨a2, b2, c2, d2, e2⟩ := ih st2 st1 h v a1
      exact ⟨a2, b2.trans b1, c2.trans c1, d2.trans d1, e2.trans e1⟩

end NewAmuo

namespace NewAmuo

theorem astarRelax_visited (ctx : ACtx) (cur : Entry) (st : AState)
    (nbr : ℕ) : (astarRelax ctx cur st nbr).visited = st.visited := by
  unfold astarRelax
  split
  · rfl
  · dsimp only
    split
    · rfl
    · rfl

theorem astarRelax_frozen (ctx : ACtx) (cur : Entry) (st : AState)
    (nbr v : ℕ) (hv : v ∈ st.visited) :
    (astarRelax ctx cur st nbr).g_scores v = st.g_scores v ∧
    (astarRelax ctx cur st nbr).came_from v = st.came_from v ∧
    (astarRelax ctx cur st nbr).arrival_times v = st.arrival_times v ∧
    (astarRelax ctx cur st nbr).edge_costs v = st.edge_costs v := by
  unfold astarRelax
  split
  · exact ⟨rfl, rfl, rfl, rfl⟩
  · rename_i hnbr
    dsimp only
    split
    · have hne : v ≠ nbr := fun h => hnbr (h ▸ hv)
      refine ⟨?_, ?_, ?_, ?_⟩ <;> simp [upd, hne]
    · exact ⟨rfl, rfl, rfl, rfl⟩

theorem astarRelax_foldl_frozen (ctx : ACtx) (cur : Entry) (l : List ℕ) :
    ∀ (st : AState) (v : ℕ), v ∈ st.visited →
      (l.foldl (astarRelax ctx cur) st).visited = st.visited ∧
      (l.foldl (astarRelax ctx cur) st).g_scores v = st.g_scores v ∧
      (l.foldl (astarRelax ctx cur) st).came_from v = st.came_from v ∧
      (l.foldl (astarRelax ctx cur) st).arrival_times v = st.arrival_times v ∧
      (l.foldl (astarRelax ctx cur) st).edge_costs v = st.edge_costs v := by
  induction l with
  | nil => exact fun st v _ => ⟨rfl, rfl, rfl, rfl, rfl⟩
  | cons x xs ih =>
    intro st v hv
    simp only [List.foldl_cons]
    have hvis := astarRelax_visited ctx cur st x
    obtain ⟨f1, f2, f3, f4⟩ := astarRelax_frozen ctx cur st x v hv
    have hv1 : v ∈ (astarRelax ctx cur st x).visited := by
      rw [hvis]; exact hv
    obtain ⟨a, b, c, d, e⟩ := ih (astarRelax ctx cur st x) v hv1
    exact ⟨a.trans hvis, b.trans f1, c.trans f2, d.trans f3, e.trans f4⟩

theorem astarBody_frozen (ctx : ACtx) (fuel : ℕ) (st st1 : AState)
    (h : astarBody ctx fuel st = Sum.inr st1) (v : ℕ) (hv : v ∈ st.visited) :
    v ∈ st1.visited ∧
    st1.g_scores v = st.g_scores v ∧
    st1.came_from v = st.came_from v ∧
    st1.arrival_times v = st.arrival_times v ∧
    st1.edge_costs v = st.edge_costs v := by
  unfold astarBody at h
  cases hpop : popMin st.open_set with
  | none => rw [hpop] at h; cases h
  | some pr =>
    obtain ⟨cur, rest⟩ := pr
    rw [hpop] at h
    dsimp only at h
    by_cases hg : cur.node = ctx.goal
    · rw [if_pos hg] at h; cases h
    · rw [if_neg hg] at h
      split at h
      · injection h with h
        subst h
        exact ⟨hv, rfl, rfl, rfl, rfl⟩
      · injection h with h
        subst h
        have hv1 : v ∈ (cur.node :: st.visited) := List.mem_cons_of_mem _ hv
        obtain ⟨a, b, c, d, e⟩ := astarRelax_foldl_frozen ctx cur
          (ctx.G.successors cur.node)
          ⟨rest, st.counter, st.g_scores, st.came_from, st.arrival_times,
           st.edge_costs, cur.node :: st.visited⟩
          v hv1
        refine ⟨?_, b, c, d, e⟩
        rw [a]
        exact hv1

theorem astarStates_frozen (ctx : ACtx) :
    ∀ (n : ℕ) (st st1 : AState), astarStates ctx n st = some st1 →
      ∀ v ∈ st.visited,
        v ∈ st1.visited ∧
        st1.g_scores v = st.g_scores v ∧
        st1.came_from v = st.came_from v ∧
        st1.arrival_times v = st.arrival_times v ∧
        st1.edge_costs v = st.edge_costs v := by
  intro n
  induction n with
  | zero =>
    intro st st1 h v hv
    cases h
    exact ⟨hv, rfl, rfl, rfl, rfl⟩
  | succ m ih =>
    intro st st1 h v hv
    unfold astarStates at h
    cases hb : astarBody ctx m st with
    | inl r => rw [hb] at h; cases h
    | inr st2 =>
      rw [hb] at h
      obtain ⟨a1, b1, c1, d1, e1⟩ := astarBody_frozen ctx m st st2 hb v hv
      obtain ⟨a2, b2, c2, d2, e2⟩ := ih st2 st1 h v a1
      exact ⟨a2, b2.trans b1, c2.trans c1, d2.trans d1, e2.trans e1⟩

/-- C10: within a search (orion or astar), once a node is closed its
`g_score`, parent, arrival time and stored edge data are never updated
again — relaxation skips edges into closed nodes — so after any number of
further iterations the values recorded for a closed node are unchanged and
the node stays closed. -/
theorem c10_closed_nodes_frozen :
    (∀ (ctx : OCtx) (tms : ℚ) (n : ℕ) (st st1 : OState),
      orionStates ctx tms n st = some st1 →
      ∀ v ∈ st.visited,
        v ∈ st1.visited ∧
        st1.g_scores v = st.g_scores v ∧
        st1.came_from v = st.came_from v ∧
        st1.arrival_times v = st.arrival_times v ∧
        st1.edge_details v = st.edge_details v) ∧
    (∀ (ctx : ACtx) (n : ℕ) (st st1 : AState),
      astarStates ctx n st = some st1 →
      ∀ v ∈ st.visited,
        v ∈ st1.visited ∧
        st1.g_scores v = st.g_scores v ∧
        st1.came_from v = st.came_from v ∧
        st1.arrival_times v = st.arrival_times v ∧
        st1.edge_costs v = st.edge_costs v) :=
  ⟨fun ctx tms => orionStates_frozen ctx tms,
   fun ctx => astarStates_frozen ctx⟩

/-- Witness for C10: one concrete loop iteration on each engine leaves the
already-closed node 5 untouched. -/
theorem c10_closed_nodes_frozen_witness :
    (5 ∈ stW5next.visited ∧
     stW5next.g_scores 5 = stW5.g_scores 5 ∧
     stW5next.came_from 5 = stW5.came_from 5 ∧
     stW5next.arrival_times 5 = stW5.arrival_times 5 ∧
     stW5next.edge_details 5 = stW5.edge_details 5) ∧
    (5 ∈ astW5next.visited ∧
     astW5next.g_scores 5 = astW5.g_scores 5 ∧
     astW5next.came_from 5 = astW5.came_from 5 ∧
     astW5next.arrival_times 5 = astW5.arrival_times 5 ∧
     astW5next.edge_costs 5 = astW5.edge_costs 5) :=
  ⟨c10_closed_nodes_frozen.1 ctxW 0 1 stW5 stW5next rfl 5 (by decide),
   c10_closed_nodes_frozen.2 actxW 1 astW5 astW5next rfl 5 (by decide)⟩

end NewAmuo
